import Mathlib

/-!
Verification of the salary-normalization component of the JobSearch
repository (`Clean.parse_salary` and `Clean.convert_number` in
`jobsearch/JobSearch.py`), as a shallow embedding.

Modelling conventions:
* Python strings are `List Char`; the input to `parse_salary` is an
  `Option String` (`none` stands for a missing or non-string value, which
  in the source fails the `isinstance(s, str)` guard).
* Python floats are modelled by `ℚ`.  Every numeric token the source
  feeds to `float()` is drawn from the regex class `[\d\.]+` (plus an
  optional `k`/`K` handled before the call), and on such strings decimal
  parsing is exact, so `ℚ` is a faithful carrier.
* A raised exception is modelled by the result `none`; a normal return of
  a record is `some r`.  `convert_number` returns `Option ℚ`, with `none`
  standing for a `ValueError` from `float()`.
* `round(x, 2)` is modelled by round-half-to-even at two decimals.
-/

attribute [local semireducible] Rat.add Rat.sub Rat.mul Rat.inv

namespace JobSearch

/-- The pay-period tag produced by period detection. -/
inductive Period where
  | hour
  | day
  | week
  | month
  | year
deriving DecidableEq, Repr

/-- The seven-field dictionary returned by `parse_salary`; every field is
optional because the all-`None` dictionary is a possible return value. -/
structure SalaryRecord where
  min_raw : Option ℚ
  max_raw : Option ℚ
  avg_value : Option ℚ
  min_annualized : Option ℚ
  max_annualized : Option ℚ
  annualized_avg : Option ℚ
  period : Option Period
deriving DecidableEq, Repr

/-- The record with every field `None`, returned on the empty/non-string
guard and when no numeric token is found. -/
def allNoneRecord : SalaryRecord :=
  ⟨none, none, none, none, none, none, none⟩

/-- Whitespace for Python `str.strip()` and the regex class `\s`
(ASCII fragment). -/
def pyIsSpace (c : Char) : Bool :=
  c = ' ' || c = '\t' || c = '\n' || c = '\r' || c = '\x0b' || c = '\x0c'

/-- Python `str.strip()`: drop leading and trailing whitespace. -/
def pyStrip (s : List Char) : List Char :=
  ((s.dropWhile pyIsSpace).reverse.dropWhile pyIsSpace).reverse

/-- Python `str.lower()` on one character (ASCII fragment). -/
def pyToLower (c : Char) : Char :=
  if 'A' ≤ c && c ≤ 'Z' then Char.ofNat (c.toNat + 32) else c

/-- Python `str.lower()` (ASCII fragment). -/
def pyLower (s : List Char) : List Char := s.map pyToLower

/-- After an opening parenthesis, `re.sub(r"\(.*?\)", "", s)` consumes up
to the first closing parenthesis, failing if a newline intervenes
(`.` does not match a newline).  Returns the remainder after the first
`)` when the match succeeds. -/
def findClose : List Char → Option (List Char)
  | [] => none
  | c :: cs =>
    if c = ')' then some cs
    else if c = '\n' then none
    else findClose cs

/-- Fuel-indexed body of `removeParens`; each step consumes at least one
character, so fuel `s.length` always suffices (see `findClose_length`). -/
def removeParensF : Nat → List Char → List Char
  | _, [] => []
  | 0, s => s
  | n + 1, c :: cs =>
    if c = '(' then
      match findClose cs with
      | some rest => removeParensF n rest
      | none => c :: removeParensF n cs
    else c :: removeParensF n cs

/-- `re.sub(r"\(.*?\)", "", s)`: scan left to right; at each `(` whose
closing `)` is reachable without a newline, delete the span and continue
after it; otherwise keep the character. -/
def removeParens (s : List Char) : List Char := removeParensF s.length s

/-- Python `str.replace("US$", "")`: delete every occurrence of the
three-character pattern, scanning left to right. -/
def removeUSD : List Char → List Char
  | 'U' :: 'S' :: '$' :: rest => removeUSD rest
  | c :: cs => c :: removeUSD cs
  | [] => []

/-- The numeric-cleaning pipeline of `parse_salary`: strip parentheticals,
delete commas, delete `US$`, delete `$`, then trim whitespace. -/
def cleanNums (s : List Char) : List Char :=
  pyStrip ((removeUSD ((removeParens s).filter (fun c => c ≠ ','))).filter
    (fun c => c ≠ '$'))

/-- A regex word character (`\w`), ASCII fragment. -/
def isWordChar (c : Char) : Bool := c.isAlphanum || c = '_'

/-- Substring containment, for alternatives without `\b` anchors. -/
def hasSub (pat : List Char) : List Char → Bool
  | [] => pat.isEmpty
  | c :: cs => pat.isPrefixOf (c :: cs) || hasSub pat cs

/-- `pat` matches at the head of `t` with a word boundary on each side;
`prev` is the character just before `t` (if any). -/
def wbAt (pat t : List Char) (prev : Option Char) : Bool :=
  pat.isPrefixOf t
    && (match prev with
        | none => true
        | some p => !isWordChar p)
    && (match t.drop pat.length with
        | [] => true
        | d :: _ => !isWordChar d)

def wbSearch (pat : List Char) : Option Char → List Char → Bool
  | prev, [] => wbAt pat [] prev
  | prev, c :: cs => wbAt pat (c :: cs) prev || wbSearch pat (some c) cs

/-- `re.search(r"\b<pat>\b", t)` as a Boolean. -/
def wordBounded (pat t : List Char) : Bool := wbSearch pat none t

/-- Match of `pat` at the head of `t` with a word boundary after it only. -/
def rbAt (pat t : List Char) : Bool :=
  pat.isPrefixOf t
    && (match t.drop pat.length with
        | [] => true
        | d :: _ => !isWordChar d)

def rbSearch (pat : List Char) : List Char → Bool
  | [] => false
  | c :: cs => rbAt pat (c :: cs) || rbSearch pat cs

/-- `re.search(r"<pat>\b", t)` as a Boolean (the patterns used end in a
word character, so the trailing `\b` means the next character is
non-word or the string ends). -/
def rightBounded (pat t : List Char) : Bool := rbSearch pat t

/-- `re.search(r"hour|/hr|/h|\bhr\b", text)`. -/
def hourCue (t : List Char) : Bool :=
  hasSub "hour".data t || hasSub "/hr".data t || hasSub "/h".data t
    || wordBounded "hr".data t

/-- `re.search(r"\bday\b|/day|daily\b", text)`. -/
def dayCue (t : List Char) : Bool :=
  wordBounded "day".data t || hasSub "/day".data t
    || rightBounded "daily".data t

/-- `re.search(r"\bweek\b|/week|/wk\b", text)`. -/
def weekCue (t : List Char) : Bool :=
  wordBounded "week".data t || hasSub "/week".data t
    || rightBounded "/wk".data t

/-- `"month" in text`. -/
def monthCue (t : List Char) : Bool := hasSub "month".data t

/-- `re.search(r"\byr\b|/yr|per year|a year|\bannually\b|\bannual\b", text)`. -/
def yearCue (t : List Char) : Bool :=
  wordBounded "yr".data t || hasSub "/yr".data t || hasSub "per year".data t
    || hasSub "a year".data t || wordBounded "annually".data t
    || wordBounded "annual".data t

/-- The `if/elif` chain of period detection, applied to the lowercased
original string.  Both the year branch and the final `else` produce
`year`, exactly as in the source. -/
def detectPeriod (t : List Char) : Period :=
  if hourCue t then .hour
  else if dayCue t then .day
  else if weekCue t then .week
  else if monthCue t then .month
  else if yearCue t then .year
  else .year

/-- A character of the regex class `[\d\.]`. -/
def isNumChar (c : Char) : Bool := c.isDigit || c = '.'

/-- The optional `k?` (with `re.IGNORECASE`) after a numeric run: the
captured suffix, if the next character is `k` or `K`. -/
def optKTok : List Char → List Char
  | 'k' :: _ => ['k']
  | 'K' :: _ => ['K']
  | _ => []

/-- Remainder after the optional `k`/`K`. -/
def restAfterK : List Char → List Char
  | 'k' :: r => r
  | 'K' :: r => r
  | r => r

/-- Attempt of `([\d\.]+k?)\s*[–-]\s*([\d\.]+k?)` at the head of `s`.
The character classes `[\d\.]`, `k?`, `\s` and `[–-]` are pairwise
disjoint, so the greedy maximal-munch match needs no backtracking. -/
def matchRangeAt (s : List Char) : Option (List Char × List Char) :=
  let n1 := s.takeWhile isNumChar
  if n1 = [] then none
  else
    let r1 := s.dropWhile isNumChar
    let r3 := (restAfterK r1).dropWhile pyIsSpace
    match r3 with
    | [] => none
    | d :: r4 =>
      if d = '-' || d = '–' then
        let r5 := r4.dropWhile pyIsSpace
        let n2 := r5.takeWhile isNumChar
        if n2 = [] then none
        else some (n1 ++ optKTok r1, n2 ++ optKTok (r5.dropWhile isNumChar))
      else none

/-- First (leftmost) match of the range pattern, as used through
`re.findall(...)[0]`: try every start position from the left. -/
def findRange : List Char → Option (List Char × List Char)
  | [] => none
  | c :: cs =>
    match matchRangeAt (c :: cs) with
    | some p => some p
    | none => findRange cs

/-- First (leftmost) match of the single-number pattern `([\d\.]+k?)`. -/
def findSingle : List Char → Option (List Char)
  | [] => none
  | c :: cs =>
    if isNumChar c then
      some (((c :: cs).takeWhile isNumChar)
        ++ optKTok ((c :: cs).dropWhile isNumChar))
    else findSingle cs

/-- Value of a digit string read in base 10. -/
def digitsVal (l : List Char) : Nat :=
  l.foldl (fun a c => 10 * a + (c.toNat - 48)) 0

/-- Python `float()` restricted to strings over the class `[\d\.]` — the
only strings `parse_salary` ever feeds it.  Such a string is a valid
float literal exactly when it is nonempty, has at least one digit and at
most one dot; otherwise `float()` raises `ValueError` (modelled `none`). -/
def floatQ (s : List Char) : Option ℚ :=
  if s ≠ [] ∧ s.all isNumChar ∧ s.any Char.isDigit ∧ s.count '.' ≤ 1 then
    let ip := s.takeWhile (fun c => c ≠ '.')
    let fp := (s.dropWhile (fun c => c ≠ '.')).drop 1
    some ((digitsVal ip : ℚ) + (digitsVal fp : ℚ) / ((10 : ℚ) ^ fp.length))
  else none

/-- `Clean.convert_number`: strip and lowercase the token; a trailing `k`
multiplies the float value of the rest by 1000; otherwise the float value
of the token itself.  `none` models a `ValueError` escaping `float()`. -/
def convert_number (value : List Char) : Option ℚ :=
  let v := (pyStrip value).map pyToLower
  if v.getLast? = some 'k' then (floatQ v.dropLast).map (fun q => q * 1000)
  else floatQ v

/-- Round half to even to an integer (Python `round` on exact values). -/
def rneInt (q : ℚ) : ℤ :=
  let f := q.floor
  if q - (f : ℚ) < 1 / 2 then f
  else if 1 / 2 < q - (f : ℚ) then f + 1
  else if f % 2 = 0 then f else f + 1

/-- Python `round(x, 2)` on exact values. -/
def pyRound2 (q : ℚ) : ℚ := (rneInt (q * 100) : ℚ) / 100

/-- The per-period annualization of the source's `if/elif` ladder,
written exactly as the source multiplies (`* 40 * 52` for hours). -/
def annualize (p : Period) (v : ℚ) : ℚ :=
  match p with
  | .hour => v * 40 * 52
  | .day => v * 260
  | .week => v * 52
  | .month => v * 12
  | .year => v

/-- The populated record built at the end of `parse_salary` from the low
and high values and the detected period. -/
def mkRecord (low high : ℚ) (p : Period) : SalaryRecord where
  min_raw := some low
  max_raw := some high
  avg_value := some (pyRound2 ((low + high) / 2))
  min_annualized := some (pyRound2 (annualize p low))
  max_annualized := some (pyRound2 (annualize p high))
  annualized_avg := some (pyRound2 (annualize p ((low + high) / 2)))
  period := some p

/-- Body of `parse_salary` after the empty/non-string guard: clean the
text, detect the period from the lowercased original, extract a range or
a single number, convert, average, annualize.  A `none` result models an
exception escaping (a `ValueError` from `float()`). -/
def parseCore (s : List Char) : Option SalaryRecord :=
  let cleaned := cleanNums s
  let p := detectPeriod (pyLower s)
  match findRange cleaned with
  | some (t1, t2) =>
    (convert_number t1).bind fun low =>
      (convert_number t2).map fun high => mkRecord low high p
  | none =>
    match findSingle cleaned with
    | none => some allNoneRecord
    | some t => (convert_number t).map fun v => mkRecord v v p

/-- `Clean.parse_salary`.  The argument `none` models a missing or
non-string input (which fails the `isinstance` guard); the result `none`
models an exception escaping the call. -/
def parse_salary : Option String → Option SalaryRecord
  | none => some allNoneRecord
  | some str => if pyStrip str.data = [] then some allNoneRecord else parseCore str.data

/-- Every one of the seven fields is absent. -/
def allAbsent (r : SalaryRecord) : Prop :=
  r.min_raw = none ∧ r.max_raw = none ∧ r.avg_value = none ∧
    r.min_annualized = none ∧ r.max_annualized = none ∧
    r.annualized_avg = none ∧ r.period = none

/-- Every one of the seven fields is present. -/
def allPresent (r : SalaryRecord) : Prop :=
  r.min_raw ≠ none ∧ r.max_raw ≠ none ∧ r.avg_value ≠ none ∧
    r.min_annualized ≠ none ∧ r.max_annualized ≠ none ∧
    r.annualized_avg ≠ none ∧ r.period ≠ none

/-- The spec's period-priority table, as an ordered association list:
first matching category wins, default `year`.  This is deliberately a
second formulation of period detection, to be compared with the
`if/elif` chain `detectPeriod` taken from the source. -/
def periodPriority : List ((List Char → Bool) × Period) :=
  [(hourCue, .hour), (dayCue, .day), (weekCue, .week),
    (monthCue, .month), (yearCue, .year)]

/-- First matching category of the priority table, default `year`. -/
def firstMatching (t : List Char) : Period :=
  ((periodPriority.find? (fun pc => pc.1 t)).map Prod.snd).getD .year

/-! ### Helper lemmas -/

theorem findClose_length {cs rest : List Char} (h : findClose cs = some rest) :
    rest.length < cs.length := by
  induction cs with
  | nil => simp [findClose] at h
  | cons c cs ih =>
    simp only [findClose] at h
    by_cases hc : c = ')'
    · simp [hc] at h
      simp [← h, List.length_cons]
    · by_cases hn : c = '\n'
      · simp [hc, hn] at h
      · simp [hc, hn] at h
        have := ih h
        simp only [List.length_cons]
        omega

theorem isNumChar_not_space {c : Char} (h : isNumChar c = true) :
    pyIsSpace c = false := by
  by_contra hs
  simp only [Bool.not_eq_false, pyIsSpace, Bool.or_eq_true, decide_eq_true_eq] at hs
  rcases hs with ((((h1 | h1) | h1) | h1) | h1) | h1 <;> subst h1 <;>
    exact absurd h (by decide)

theorem pyToLower_numChar {c : Char} (h : isNumChar c = true) :
    pyToLower c = c := by
  unfold pyToLower
  rw [if_neg]
  intro hc
  simp only [Bool.and_eq_true, decide_eq_true_eq] at hc
  simp only [isNumChar, Bool.or_eq_true, decide_eq_true_eq] at h
  rcases h with h | h
  · simp only [Char.isDigit, Bool.and_eq_true, decide_eq_true_eq] at h
    have h1 : ('A' : Char).val ≤ c.val := hc.1
    have h2 : c.val ≤ 57 := h.2
    rw [UInt32.le_def, BitVec.le_def] at h1 h2
    have e1 : ('A' : Char).val.toBitVec.toNat = 65 := by decide
    have e2 : ((57 : UInt32)).toBitVec.toNat = 57 := by decide
    omega
  · subst h
    exact absurd hc.1 (by decide)

theorem dropWhile_eq_self {p : Char → Bool} {l : List Char}
    (h : ∀ c ∈ l, p c = false) : l.dropWhile p = l := by
  cases l with
  | nil => rfl
  | cons c cs => simp [List.dropWhile_cons, h c (List.mem_cons_self c cs)]

theorem pyStrip_eq_self {l : List Char} (h : ∀ c ∈ l, pyIsSpace c = false) :
    pyStrip l = l := by
  unfold pyStrip
  rw [dropWhile_eq_self h, dropWhile_eq_self (by
    intro c hc
    exact h c (List.mem_reverse.mp hc)), List.reverse_reverse]

theorem map_eq_self {f : Char → Char} {l : List Char}
    (h : ∀ c ∈ l, f c = c) : l.map f = l := by
  induction l with
  | nil => rfl
  | cons c cs ih =>
    simp only [List.map_cons, h c (List.mem_cons_self c cs), List.cons.injEq,
      true_and]
    exact ih fun d hd => h d (List.mem_cons_of_mem c hd)

/-- On a token made of `[\d\.]` characters, the strip-and-lowercase
preprocessing of `convert_number` is the identity. -/
theorem numTok_prep {w : List Char} (h : ∀ c ∈ w, isNumChar c = true) :
    (pyStrip w).map pyToLower = w := by
  rw [pyStrip_eq_self (fun c hc => isNumChar_not_space (h c hc))]
  exact map_eq_self fun c hc => pyToLower_numChar (h c hc)

theorem floatQ_nonneg {s : List Char} {q : ℚ} (h : floatQ s = some q) :
    0 ≤ q := by
  unfold floatQ at h
  split at h
  · simp only [Option.some.injEq] at h
    subst h
    positivity
  · simp at h

theorem convert_number_nonneg {t : List Char} {q : ℚ}
    (h : convert_number t = some q) : 0 ≤ q := by
  simp only [convert_number] at h
  split at h
  · rcases Option.map_eq_some'.mp h with ⟨q0, hq0, rfl⟩
    have := floatQ_nonneg hq0
    positivity
  · exact floatQ_nonneg h

theorem rneInt_nonneg {q : ℚ} (h : 0 ≤ q) : 0 ≤ rneInt q := by
  simp only [rneInt]
  have hf : 0 ≤ q.floor := Rat.le_floor.mpr (by exact_mod_cast h)
  split_ifs <;> omega

theorem pyRound2_nonneg {q : ℚ} (h : 0 ≤ q) : 0 ≤ pyRound2 q := by
  unfold pyRound2
  have : (0 : ℤ) ≤ rneInt (q * 100) := rneInt_nonneg (by positivity)
  positivity

theorem annualize_nonneg {p : Period} {v : ℚ} (h : 0 ≤ v) :
    0 ≤ annualize p v := by
  unfold annualize
  cases p <;> positivity

/-- Any record returned by the body of `parse_salary` is either the
all-`None` record or a populated record built by `mkRecord` from two
nonnegative converted values and the period detected on the lowercased
original string. -/
theorem parseCore_cases {s : List Char} {r : SalaryRecord}
    (h : parseCore s = some r) :
    r = allNoneRecord ∨
      ∃ low high, 0 ≤ low ∧ 0 ≤ high ∧
        r = mkRecord low high (detectPeriod (pyLower s)) := by
  simp only [parseCore] at h
  split at h
  · rename_i t1 t2 heq
    cases h1 : convert_number t1 with
    | none => rw [h1] at h; simp at h
    | some low =>
      rw [h1] at h
      simp only [Option.some_bind] at h
      cases h2 : convert_number t2 with
      | none => rw [h2] at h; simp at h
      | some high =>
        rw [h2] at h
        simp only [Option.map_some', Option.some.injEq] at h
        exact Or.inr ⟨low, high, convert_number_nonneg h1,
          convert_number_nonneg h2, h.symm⟩
  · split at h
    · simp only [Option.some.injEq] at h
      exact Or.inl h.symm
    · rename_i t heq2
      cases h1 : convert_number t with
      | none => rw [h1] at h; simp at h
      | some v =>
        rw [h1] at h
        simp only [Option.map_some', Option.some.injEq] at h
        exact Or.inr ⟨v, v, convert_number_nonneg h1,
          convert_number_nonneg h1, h.symm⟩

/-- Top-level inversion for `parse_salary`. -/
theorem parse_salary_cases {inp : Option String} {r : SalaryRecord}
    (h : parse_salary inp = some r) :
    r = allNoneRecord ∨
      ∃ s low high, inp = some s ∧ 0 ≤ low ∧ 0 ≤ high ∧
        r = mkRecord low high (detectPeriod (pyLower s.data)) := by
  cases inp with
  | none =>
    simp only [parse_salary, Option.some.injEq] at h
    exact Or.inl h.symm
  | some str =>
    simp only [parse_salary] at h
    split at h
    · simp only [Option.some.injEq] at h
      exact Or.inl h.symm
    · rcases parseCore_cases h with h1 | ⟨low, high, h1, h2, h3⟩
      · exact Or.inl h1
      · exact Or.inr ⟨str, low, high, rfl, h1, h2, h3⟩

/-- The source's `if/elif` chain computes exactly the first matching
category of the spec's priority table, with default `year`. -/
theorem detectPeriod_eq_firstMatching (t : List Char) :
    detectPeriod t = firstMatching t := by
  by_cases h1 : hourCue t <;> by_cases h2 : dayCue t <;>
    by_cases h3 : weekCue t <;> by_cases h4 : monthCue t <;>
    by_cases h5 : yearCue t <;>
    simp [detectPeriod, firstMatching, periodPriority, List.find?,
      h1, h2, h3, h4, h5]

theorem mkRecord_allPresent (low high : ℚ) (p : Period) :
    allPresent (mkRecord low high p) := by
  simp [allPresent, mkRecord]

/-- On a token of `[\d\.]` characters followed by `d`, with `d` a
non-space character lowercasing to `e`, the preprocessing of
`convert_number` yields the token followed by `e`. -/
theorem prep_concat (d e : Char) {w : List Char}
    (h : ∀ c ∈ w, isNumChar c = true) (hd : pyIsSpace d = false)
    (he : pyToLower d = e) :
    List.map pyToLower (pyStrip (w ++ [d])) = w ++ [e] := by
  have hsp : ∀ c ∈ w ++ [d], pyIsSpace c = false := by
    intro c hc
    rcases List.mem_append.mp hc with hc | hc
    · exact isNumChar_not_space (h c hc)
    · simp only [List.mem_singleton] at hc
      subst hc
      exact hd
  rw [pyStrip_eq_self hsp, List.map_append,
    map_eq_self fun c hc => pyToLower_numChar (h c hc)]
  simp [he]

/-! ### Claims -/

/-- C1: the claim that `parse_salary` never raises fails on the code:
the numeric grammar `[\d\.]+k?` matches the token `.` of the input
`"."`, `convert_number` feeds it to `float()`, and the conversion raises
`ValueError` (modelled as the `none` result), which escapes
`parse_salary`. -/
theorem parse_salary_raises_on_dot :
    findSingle (cleanNums ".".data) = some ".".data ∧
      convert_number ".".data = none ∧
      parse_salary (some ".") = none := by
  decide

/-- C2: every record `parse_salary` returns has its seven fields either
all absent or all present; no partially populated record is ever
returned. -/
theorem parse_salary_all_or_none (inp : Option String) (r : SalaryRecord)
    (h : parse_salary inp = some r) : allAbsent r ∨ allPresent r := by
  rcases parse_salary_cases h with h1 | ⟨s, low, high, _, _, _, h3⟩
  · subst h1
    exact Or.inl (by simp [allAbsent, allNoneRecord])
  · subst h3
    exact Or.inr (mkRecord_allPresent _ _ _)

/-- C2 witness: the all-or-none property instantiated on the populated
record returned for a weekly range input. -/
theorem parse_salary_all_or_none_witness :
    allAbsent (⟨some 100, some 200, some 150, some 5200, some 10400,
        some 7800, some Period.week⟩ : SalaryRecord) ∨
      allPresent (⟨some 100, some 200, some 150, some 5200, some 10400,
        some 7800, some Period.week⟩ : SalaryRecord) :=
  parse_salary_all_or_none (some "100-200 a week") _ (by decide)

/-- C3: the claim that the all-absent record is the only degraded
outcome and that no failure reaches the caller fails on the code: the
guard and no-token cases do return the all-absent record, but an input
whose first numeric token has two dots (`"1.2.3"`) makes `float()` raise
a `ValueError` (modelled as `none`) that escapes to the caller. -/
theorem parse_salary_failure_escapes :
    parse_salary (some "   ") = some allNoneRecord ∧
      parse_salary (some "no pay information") = some allNoneRecord ∧
      findSingle (cleanNums "1.2.3".data) = some "1.2.3".data ∧
      parse_salary (some "1.2.3") = none := by
  decide

/-- C10: a `k`/`K` suffix multiplies only the token bearing it and does
not distribute over a range: `"130-160K a year"` gives `min_raw = 130`
and `max_raw = 160000`. -/
theorem parse_salary_k_no_distribute :
    findRange (cleanNums "130-160K a year".data) =
        some ("130".data, "160K".data) ∧
      convert_number "130".data = some 130 ∧
      convert_number "160K".data = some 160000 ∧
      parse_salary (some "130-160K a year") =
        some ⟨some 130, some 160000, some 80065, some 130, some 160000,
          some 80065, some Period.year⟩ := by
  decide

/-- C4: for every string input that returns a populated record, the
period tag is the first matching category of the fixed priority order
hour, day, week, month, year (default `year`), evaluated
case-insensitively on the original uncleaned string; in particular an
input carrying both a `month` and a `year` cue (and no hour, day or
week cue) gets period `month`. -/
theorem parse_salary_period_priority :
    (∀ (s : String) (r : SalaryRecord) (p : Period),
      parse_salary (some s) = some r → r.period = some p →
      p = firstMatching (pyLower s.data)) ∧
      monthCue (pyLower "1000 a month or 12000 a year".data) = true ∧
      yearCue (pyLower "1000 a month or 12000 a year".data) = true ∧
      hourCue (pyLower "1000 a month or 12000 a year".data) = false ∧
      dayCue (pyLower "1000 a month or 12000 a year".data) = false ∧
      weekCue (pyLower "1000 a month or 12000 a year".data) = false ∧
      parse_salary (some "1000 a month or 12000 a year") =
        some ⟨some 1000, some 1000, some 1000, some 12000, some 12000,
          some 12000, some Period.month⟩ := by
  refine ⟨?_, by decide, by decide, by decide, by decide, by decide, by decide⟩
  intro s r p h hp
  rcases parse_salary_cases h with h1 | ⟨s1, low, high, hs, _, _, h3⟩
  · subst h1
    simp [allNoneRecord] at hp
  · obtain rfl : s1 = s := by injection hs with hs; exact hs.symm
    subst h3
    simp only [mkRecord, Option.some.injEq] at hp
    rw [← hp, detectPeriod_eq_firstMatching]

/-- C4 witness: the priority property instantiated on a daily input. -/
theorem parse_salary_period_priority_witness :
    Period.day = firstMatching (pyLower "500 per day".data) :=
  parse_salary_period_priority.1 "500 per day"
    ⟨some 500, some 500, some 500, some 130000, some 130000, some 130000,
      some Period.day⟩ Period.day (by decide) (by decide)

/-- C5: `parse_salary "$30.00-37.50 an hour"` yields period `hour` and
`annualized_avg = ((30 + 37.5) / 2) * 2080 = 70200.00`; in general, for
period `hour` the low, the high and their average are annualized with
the fixed factor `2080 = 40 * 52` and rounded to two decimals. -/
theorem parse_salary_hour_annualization :
    parse_salary (some "$30.00-37.50 an hour") =
        some ⟨some 30, some (75 / 2), some (135 / 4), some 62400,
          some 78000, some 70200, some Period.hour⟩ ∧
      (∀ (s : String) (r : SalaryRecord) (low high : ℚ),
        parse_salary (some s) = some r → r.period = some Period.hour →
        r.min_raw = some low → r.max_raw = some high →
        r.min_annualized = some (pyRound2 (low * 2080)) ∧
          r.max_annualized = some (pyRound2 (high * 2080)) ∧
          r.annualized_avg = some (pyRound2 ((low + high) / 2 * 2080))) := by
  refine ⟨by decide, ?_⟩
  intro s r low high h hp hlow hhigh
  rcases parse_salary_cases h with h1 | ⟨s1, l, hgh, _, _, _, h3⟩
  · subst h1
    simp [allNoneRecord] at hp
  · subst h3
    simp only [mkRecord, Option.some.injEq] at hp hlow hhigh
    subst hlow
    subst hhigh
    rw [hp]
    refine ⟨?_, ?_, ?_⟩ <;>
      simp only [mkRecord, annualize, Option.some.injEq] <;> ring_nf

/-- C5 witness: the hourly annualization property instantiated on the
record returned for `"$30.00-37.50 an hour"`. -/
theorem parse_salary_hour_annualization_witness :
    (⟨some 30, some (75 / 2), some (135 / 4), some 62400, some 78000,
        some 70200, some Period.hour⟩ : SalaryRecord).min_annualized =
        some (pyRound2 ((30 : ℚ) * 2080)) ∧
      (⟨some 30, some (75 / 2), some (135 / 4), some 62400, some 78000,
        some 70200, some Period.hour⟩ : SalaryRecord).max_annualized =
        some (pyRound2 ((75 / 2 : ℚ) * 2080)) ∧
      (⟨some 30, some (75 / 2), some (135 / 4), some 62400, some 78000,
        some 70200, some Period.hour⟩ : SalaryRecord).annualized_avg =
        some (pyRound2 (((30 : ℚ) + 75 / 2) / 2 * 2080)) :=
  parse_salary_hour_annualization.2 "$30.00-37.50 an hour" _ 30 (75 / 2)
    (by decide) (by decide) (by decide) (by decide)

/-- C6: `parse_salary "6,211-15,211 a month"` yields
`min_raw = 6211`, `max_raw = 15211`, period `month`,
`min_annualized = 74532.00`, `max_annualized = 182532.00`; thousands
separators are removed before extraction and the `month` multiplier
is 12. -/
theorem parse_salary_month_annualization :
    cleanNums "6,211-15,211 a month".data = "6211-15211 a month".data ∧
      parse_salary (some "6,211-15,211 a month") =
        some ⟨some 6211, some 15211, some 10711, some 74532, some 182532,
          some 128532, some Period.month⟩ ∧
      (∀ (s : String) (r : SalaryRecord) (low high : ℚ),
        parse_salary (some s) = some r → r.period = some Period.month →
        r.min_raw = some low → r.max_raw = some high →
        r.min_annualized = some (pyRound2 (low * 12)) ∧
          r.max_annualized = some (pyRound2 (high * 12))) := by
  refine ⟨by decide, by decide, ?_⟩
  intro s r low high h hp hlow hhigh
  rcases parse_salary_cases h with h1 | ⟨s1, l, hgh, _, _, _, h3⟩
  · subst h1
    simp [allNoneRecord] at hp
  · subst h3
    simp only [mkRecord, Option.some.injEq] at hp hlow hhigh
    subst hlow
    subst hhigh
    rw [hp]
    exact ⟨by simp [mkRecord, annualize], by simp [mkRecord, annualize]⟩

/-- C6 witness: the monthly annualization property instantiated on the
record returned for `"6,211-15,211 a month"`. -/
theorem parse_salary_month_annualization_witness :
    (⟨some 6211, some 15211, some 10711, some 74532, some 182532,
        some 128532, some Period.month⟩ : SalaryRecord).min_annualized =
        some (pyRound2 ((6211 : ℚ) * 12)) ∧
      (⟨some 6211, some 15211, some 10711, some 74532, some 182532,
        some 128532, some Period.month⟩ : SalaryRecord).max_annualized =
        some (pyRound2 ((15211 : ℚ) * 12)) :=
  parse_salary_month_annualization.2.2 "6,211-15,211 a month" _ 6211 15211
    (by decide) (by decide) (by decide) (by decide)

/-- C7 counterexample: the claim that a single-number input always has
`min_raw = max_raw = avg_value` fails on the code, because `avg_value`
is rounded to two decimals while `min_raw` is not: for `"1.234"` the
returned record has `min_raw = 1.234` but `avg_value = 1.23`. -/
theorem parse_salary_single_rounding_counterexample :
    parse_salary (some "1.234") =
        some ⟨some (617 / 500), some (617 / 500), some (123 / 100),
          some (123 / 100), some (123 / 100), some (123 / 100),
          some Period.year⟩ ∧
      ((617 : ℚ) / 500 ≠ 123 / 100) := by
  decide

/-- C7 (amended): for every input whose cleaned text contains no
two-number range but does contain a single number, that number is used
as both low and high, so `min_raw = max_raw` and `avg_value` is that
number rounded to two decimals; the period is the one detected on the
original string (default `year`).  In particular `"90K"` gives period
`year` and `min_raw = max_raw = 90000`, and `"156000"` gives period
`year` and equal min, max and average. -/
theorem parse_salary_single_number :
    (∀ (s : String) (r : SalaryRecord) (v : ℚ),
      parse_salary (some s) = some r →
      findRange (cleanNums s.data) = none →
      r.min_raw = some v →
      r.max_raw = some v ∧ r.avg_value = some (pyRound2 v) ∧
        r.period = some (detectPeriod (pyLower s.data))) ∧
      parse_salary (some "90K") =
        some ⟨some 90000, some 90000, some 90000, some 90000, some 90000,
          some 90000, some Period.year⟩ ∧
      parse_salary (some "156000") =
        some ⟨some 156000, some 156000, some 156000, some 156000,
          some 156000, some 156000, some Period.year⟩ := by
  refine ⟨?_, by decide, by decide⟩
  intro s r v h hfr hmin
  simp only [parse_salary] at h
  split at h
  · simp only [Option.some.injEq] at h
    rw [← h] at hmin
    simp [allNoneRecord] at hmin
  · simp only [parseCore, hfr] at h
    split at h
    · simp only [Option.some.injEq] at h
      rw [← h] at hmin
      simp [allNoneRecord] at hmin
    · rename_i t heq
      cases h1 : convert_number t with
      | none => rw [h1] at h; simp at h
      | some w =>
        rw [h1] at h
        simp only [Option.map_some', Option.some.injEq] at h
        rw [← h] at hmin
        simp only [mkRecord, Option.some.injEq] at hmin
        subst hmin
        rw [← h]
        refine ⟨by simp [mkRecord], ?_, by simp [mkRecord]⟩
        simp only [mkRecord, Option.some.injEq]
        congr 1
        ring_nf

/-- C7 witness: the single-number property instantiated on `"42.5"`. -/
theorem parse_salary_single_number_witness :
    (⟨some (85 / 2), some (85 / 2), some (85 / 2), some (85 / 2),
        some (85 / 2), some (85 / 2), some Period.year⟩ :
        SalaryRecord).max_raw = some (85 / 2 : ℚ) ∧
      (⟨some (85 / 2), some (85 / 2), some (85 / 2), some (85 / 2),
        some (85 / 2), some (85 / 2), some Period.year⟩ :
        SalaryRecord).avg_value = some (pyRound2 (85 / 2 : ℚ)) ∧
      (⟨some (85 / 2), some (85 / 2), some (85 / 2), some (85 / 2),
        some (85 / 2), some (85 / 2), some Period.year⟩ :
        SalaryRecord).period = some (detectPeriod (pyLower "42.5".data)) :=
  parse_salary_single_number.1 "42.5" _ (85 / 2) (by decide) (by decide)
    (by decide)

/-- C8: the `k`/`K` suffix is case-insensitive — `"45k"` and `"45K"`
parse to identical records — and on every token of the numeric grammar a
trailing `k` or `K` multiplies the decimal value of the rest by 1000,
while a token without the suffix is parsed as a plain decimal. -/
theorem convert_number_k_suffix :
    parse_salary (some "45k") = parse_salary (some "45K") ∧
      (∀ w : List Char, (∀ c ∈ w, isNumChar c = true) →
        convert_number (w ++ ['k']) = (floatQ w).map (fun q => q * 1000) ∧
          convert_number (w ++ ['K']) = (floatQ w).map (fun q => q * 1000) ∧
          convert_number w = floatQ w) := by
  refine ⟨by decide, ?_⟩
  intro w h
  have hk := prep_concat 'k' 'k' h (by decide) (by decide)
  have hK := prep_concat 'K' 'k' h (by decide) (by decide)
  have hw := numTok_prep h
  refine ⟨?_, ?_, ?_⟩
  · simp only [convert_number, hk, List.getLast?_concat,
      List.dropLast_concat, if_pos]
  · simp only [convert_number, hK, List.getLast?_concat,
      List.dropLast_concat, if_pos]
  · simp only [convert_number, hw]
    rw [if_neg]
    intro hlast
    have hmem := List.mem_of_getLast?_eq_some hlast
    exact absurd (h _ hmem) (by decide)

/-- C8 witness: the suffix property instantiated on the token `45`. -/
theorem convert_number_k_suffix_witness :
    convert_number (['4', '5'] ++ ['k']) =
        (floatQ ['4', '5']).map (fun q => q * 1000) ∧
      convert_number (['4', '5'] ++ ['K']) =
        (floatQ ['4', '5']).map (fun q => q * 1000) ∧
      convert_number ['4', '5'] = floatQ ['4', '5'] :=
  convert_number_k_suffix.2 ['4', '5'] (by decide)

/-- C9: every numeric field of every record `parse_salary` returns is
nonnegative — the numeric grammar admits no sign — and a leading minus
is discarded: `"-50000"` parses to `min_raw = max_raw = 50000`. -/
theorem parse_salary_nonneg :
    (∀ (inp : Option String) (r : SalaryRecord),
      parse_salary inp = some r → ∀ q : ℚ,
      r.min_raw = some q ∨ r.max_raw = some q ∨ r.avg_value = some q ∨
        r.min_annualized = some q ∨ r.max_annualized = some q ∨
        r.annualized_avg = some q → 0 ≤ q) ∧
      parse_salary (some "-50000") =
        some ⟨some 50000, some 50000, some 50000, some 50000, some 50000,
          some 50000, some Period.year⟩ := by
  refine ⟨?_, by decide⟩
  intro inp r h q hq
  rcases parse_salary_cases h with h1 | ⟨s, low, high, _, hl, hh, h3⟩
  · subst h1
    simp [allNoneRecord] at hq
  · subst h3
    have havg : 0 ≤ (low + high) / 2 := by positivity
    rcases hq with hq | hq | hq | hq | hq | hq <;>
      simp only [mkRecord, Option.some.injEq] at hq <;> rw [← hq]
    · exact hl
    · exact hh
    · exact pyRound2_nonneg havg
    · exact pyRound2_nonneg (annualize_nonneg hl)
    · exact pyRound2_nonneg (annualize_nonneg hh)
    · exact pyRound2_nonneg (annualize_nonneg havg)

/-- C9 witness: nonnegativity instantiated on the annualized maximum of
the record returned for `"7/hr"`. -/
theorem parse_salary_nonneg_witness : (0 : ℚ) ≤ 14560 :=
  parse_salary_nonneg.1 (some "7/hr")
    ⟨some 7, some 7, some 7, some 14560, some 14560, some 14560,
      some Period.hour⟩ (by decide) 14560
    (Or.inr (Or.inr (Or.inr (Or.inr (Or.inl (by decide))))))

end JobSearch
